import Mathlib

/-!
Verification development for the homelab structured logging core
(`tools/logging/python/logger.py`).

The Python module is shallowly embedded: Python dictionaries become
insertion-ordered association lists over a JSON-like `Value` type, the
process-wide event-id counter becomes explicit state passing (`Nat` in,
`Nat` out), and each method of `StructuredLogger` becomes a pure Lean
function over a `StructuredLogger` record.
-/

set_option autoImplicit false

namespace Homelab

/-- Untyped Python/JSON values as they flow through the logger. -/
inductive Value where
  | null
  | bool (b : Bool)
  | int (n : Int)
  | str (s : String)
  | list (xs : List Value)
  | dict (xs : List (String × Value))
deriving Repr

/-- Model of the Python `is None` test. -/
def Value.isNull : Value → Bool
  | .null => true
  | _ => false

/-- A Python `dict` with string keys: an insertion-ordered association list.
Dicts built by the logger always have pairwise-distinct keys. -/
abbrev Dict := List (String × Value)

/-- Model of `d[k]` / `d.get(k)`: the value at the first matching key. -/
def dget : Dict → String → Option Value
  | [], _ => none
  | (k', v) :: rest, k => if k' = k then some v else dget rest k

/-- Model of `d.get(k, default)`. -/
def dgetD (d : Dict) (k : String) (default : Value) : Value :=
  (dget d k).getD default

/-- Model of `d[k] = v`: replace the value at an existing key in place,
otherwise append the pair at the end (Python dict insertion order). -/
def dset : Dict → String → Value → Dict
  | [], k, v => [(k, v)]
  | (k', v') :: rest, k, v =>
    if k' = k then (k, v) :: rest else (k', v') :: dset rest k v

/-- Model of `d.pop(k, None)`'s effect on the dict: remove the key. -/
def dpop (d : Dict) (k : String) : Dict :=
  d.filter (fun p => p.1 ≠ k)

/-! ### Substring search

Models Python's `re.search(pattern, value, re.IGNORECASE)` for the sensitive
patterns, all of which are plain literals, so the search is case-insensitive
substring containment. -/

/-- `leadEq pat s` is true when `pat` is an initial run of `s`. -/
def leadEq : List Char → List Char → Bool
  | [], _ => true
  | _ :: _, [] => false
  | a :: as, b :: bs => a == b && leadEq as bs

/-- `hasSub pat s` is true when `pat` occurs contiguously inside `s`. -/
def hasSub (pat : List Char) : List Char → Bool
  | [] => pat.isEmpty
  | c :: rest => leadEq pat (c :: rest) || hasSub pat rest

/-- Substring containment on strings. -/
def strContains (s pat : String) : Bool :=
  hasSub pat.data s.data

/-- Model of Python's `str.startswith`. -/
def pyStartsWith (s pre : String) : Bool :=
  leadEq pre.data s.data

/-- Model of Python `str.lower()` (the logger only lowercases ASCII level and
configuration names and redaction inputs). -/
def pyLower (s : String) : String :=
  ⟨s.data.map Char.toLower⟩

/-- Model of Python `str.upper()`. -/
def pyUpper (s : String) : String :=
  ⟨s.data.map Char.toUpper⟩

/-- Case-insensitive substring containment, as `re.IGNORECASE` gives for the
literal sensitive patterns. -/
def strContainsCI (s pat : String) : Bool :=
  hasSub (pyLower pat).data (pyLower s).data

/-! ### Error serialization (`serialize_error`) -/

/-- The `SAFE_ATTRIBUTES` allowlist from `serialize_error`. -/
def SAFE_ATTRIBUTES : List String :=
  ["args", "code", "errno", "message", "filename", "lineno"]

/-- The `SENSITIVE_PATTERNS` list from `serialize_error` (all plain literals). -/
def SENSITIVE_PATTERNS : List String :=
  ["password", "passwd", "pwd",
   "token", "key", "secret",
   "credential", "auth",
   "ssn", "social_security",
   "credit_card", "cc_number",
   "account_number", "account_num"]

/-- `_redact_sensitive_data`: replace a string value containing any sensitive
pattern (case-insensitively) with the literal `"[REDACTED]"`. -/
def redact_sensitive_data (v : Value) : Value :=
  match v with
  | .str s =>
    if SENSITIVE_PATTERNS.any (fun pat => strContainsCI s pat) then
      .str "[REDACTED]"
    else
      .str s
  | _ => v

/-- An exception value as `serialize_error` observes it: `type(e).__name__`,
`str(e)`, the public `__dict__`, and the formatted traceback text (empty when
`format_exception` yields nothing). -/
structure PyError where
  name : String
  msg : String
  attrs : Dict
  stack : String

/-- One step of the `serialize_error` copy loop over `error.__dict__`:
skip private names, copy only allowlisted names, redacting the value. -/
def serializeStep (acc : Dict) (kv : String × Value) : Dict :=
  if pyStartsWith kv.1 "_" then acc
  else if kv.1 ∈ SAFE_ATTRIBUTES then dset acc kv.1 (redact_sensitive_data kv.2)
  else acc

/-- `serialize_error`: base `name`/`message` (with the `str(error) or "Error"`
fallback), allowlisted attributes copied with redaction, then the traceback
under `stack` when non-empty.  The Python function returns `None` for a falsy
argument; real exception objects are always truthy, so the embedding takes the
exception itself. -/
def serialize_error (e : PyError) : Dict :=
  let base : Dict :=
    [("name", .str e.name),
     ("message", .str (if e.msg = "" then "Error" else e.msg))]
  let withAttrs := e.attrs.foldl serializeStep base
  if e.stack = "" then withAttrs else dset withAttrs "stack" (.str e.stack)

/-! ### Event id generation and configuration -/

/-- `generate_event_id`: under the lock, increment the process-wide counter and
return `evt_<epoch_ms>_<counter>`.  The shared counter becomes explicit state:
the function takes the current counter and returns the new one alongside the
id.  Sequential calls of the Python function correspond to threading the
counter through successive applications. -/
def generate_event_id (nowMs : Nat) (counter : Nat) : String × Nat :=
  ("evt_" ++ toString nowMs ++ "_" ++ toString (counter + 1), counter + 1)

/-- `LEVEL_WEIGHTS.get(level, default)` over the module's weight table
(`debug=10, info=20, warn=warning=30, error=40`). -/
def LEVEL_WEIGHTS_get (level : String) (default : Nat) : Nat :=
  if level = "debug" then 10
  else if level = "info" then 20
  else if level = "warn" then 30
  else if level = "warning" then 30
  else if level = "error" then 40
  else default

/-- The module-level `config` dict, one field per key. -/
structure Config where
  service : String
  environment : String
  log_target : String
  log_level : String
  force_pretty : Bool
  version : String

/-- `self.level_threshold = LEVEL_WEIGHTS.get(config["log_level"], 20)`. -/
def level_threshold (cfg : Config) : Nat :=
  LEVEL_WEIGHTS_get cfg.log_level 20

/-- The `config` value under default environment resolution: every variable
unset, `get_version()` falling back to `"0.0.0"`. -/
def defaultConfig : Config :=
  { service := "unknown-service"
    environment := "development"
    log_target := "stdout"
    log_level := "info"
    force_pretty := false
    version := "0.0.0" }

/-! ### The logger facade -/

/-- A `StructuredLogger` instance.  The output stream is an I/O handle and is
not part of the value model; emission is modeled by returning the prepared
entry. -/
structure StructuredLogger where
  config : Config
  bindings : Dict
  pretty : Bool
  colorize : Bool

/-- The merge loop shared by `StructuredLogger.child` and the trailing context
merge of `_prepare_entry`: assign each update into the base, skipping values
that are `None`. -/
def mergeSkipNull (base : Dict) (updates : Dict) : Dict :=
  updates.foldl (fun acc kv => if kv.2.isNull then acc else dset acc kv.1 kv.2) base

/-- `StructuredLogger.child`: copy the parent's bindings (`{**self.bindings}`)
and assign every non-`None` update; the parent logger is untouched and the
child shares `config`, `pretty` and `colorize`. -/
def StructuredLogger.child (lg : StructuredLogger) (bindings : Dict) : StructuredLogger :=
  { lg with bindings := mergeSkipNull lg.bindings bindings }

/-- `StructuredLogger.bind` is an alias for `child`. -/
def StructuredLogger.bindFields (lg : StructuredLogger) (bindings : Dict) : StructuredLogger :=
  lg.child bindings

/-- `with_category(category)` = `child(category=category)`. -/
def StructuredLogger.with_category (lg : StructuredLogger) (category : String) : StructuredLogger :=
  lg.child [("category", .str category)]

/-- An `Optional[str]` argument forwarded as a keyword: `None` becomes the
null marker. -/
def optVal : Option String → Value
  | some s => .str s
  | none => .null

/-- `bind_trace(trace_id, span_id)` = `child(trace_id=…, span_id=…)`. -/
def StructuredLogger.bind_trace (lg : StructuredLogger)
    (trace_id span_id : Option String) : StructuredLogger :=
  lg.child [("trace_id", optVal trace_id), ("span_id", optVal span_id)]

/-- `with_request(request_id, user_hash)` = `child(request_id=…, user_hash=…)`. -/
def StructuredLogger.with_request (lg : StructuredLogger)
    (request_id user_hash : Option String) : StructuredLogger :=
  lg.child [("request_id", optVal request_id), ("user_hash", optVal user_hash)]

/-- Python `x or default` for an `Optional[str]`: `None` and `""` fall back. -/
def orElseStr (v : Option String) (default : String) : String :=
  match v with
  | some s => if s = "" then default else s
  | none => default

/-- `create_logger(service, environment, version, category)`. -/
def StructuredLogger.create_logger (lg : StructuredLogger)
    (service environment version category : Option String) : StructuredLogger :=
  lg.child
    [("service", .str (orElseStr service lg.config.service)),
     ("environment", .str (orElseStr environment lg.config.environment)),
     ("version", .str (orElseStr version lg.config.version)),
     ("category", .str (orElseStr category "app"))]

/-! ### Entry assembly (`_prepare_entry`) -/

/-- The `OPTIONAL_ROOT_FIELDS` list from the module. -/
def OPTIONAL_ROOT_FIELDS : List String :=
  ["request_id", "user_hash", "source", "duration_ms",
   "status_code", "tags", "trace_id", "span_id"]

/-- The value `extra.pop("context", None)` contributes: a dict is taken as the
initial context (`context.update(context_arg)` on the empty dict), anything
else — including `None` — is ignored (`isinstance(context_arg, dict)`). -/
def context_arg_of (extra : Dict) : Dict :=
  match dget extra "context" with
  | some (.dict d) => d
  | _ => []

/-- One step of the first `_prepare_entry` loop: copy the binding for `f`
into the entry when it is not `None` (`bound_value = self.bindings.get(field)`,
`if bound_value is not None: entry[field] = bound_value`). -/
def boundStep (bindings entry : Dict) (f : String) : Dict :=
  match dget bindings f with
  | some v => if v.isNull then entry else dset entry f v
  | none => entry

/-- First `_prepare_entry` loop over `OPTIONAL_ROOT_FIELDS`: copy every
binding whose value is not `None` into the entry. -/
def applyBoundFields (fields : List String) (bindings : Dict) (entry : Dict) : Dict :=
  match fields with
  | [] => entry
  | f :: fs => applyBoundFields fs bindings (boundStep bindings entry f)

/-- One step of the second `_prepare_entry` loop: when field `f` is among the
call's keyword arguments, pop it; a non-`None` value overrides the entry, an
explicit `None` removes the field from the entry. -/
def callStep (st : Dict × Dict) (f : String) : Dict × Dict :=
  match dget st.2 f with
  | some v =>
    if v.isNull then (dpop st.1 f, dpop st.2 f)
    else (dset st.1 f v, dpop st.2 f)
  | none => st

/-- Second `_prepare_entry` loop over `OPTIONAL_ROOT_FIELDS`. -/
def applyCallFields (fields : List String) (st : Dict × Dict) : Dict × Dict :=
  match fields with
  | [] => st
  | f :: fs => applyCallFields fs (callStep st f)

/-- Final `_prepare_entry` sweep: drop every root key whose value is `None`. -/
def dropNulls (entry : Dict) : Dict :=
  entry.filter (fun p => !p.2.isNull)

/-- The value bound to `"event_id"` in the entry literal:
`extra.pop("event_id", generate_event_id())` on the `extra` dict that already
had `"context"` popped.  Python evaluates the default argument *before* the
pop, so `generate_event_id()` runs — and the counter advances — even when the
caller supplied an `event_id` of their own; `gen` is that already-generated
id. -/
def event_id_value (extra : Dict) (gen : String) : Value :=
  (dget (dpop extra "context") "event_id").getD (.str gen)

/-- The keyword arguments left after `_prepare_entry` popped `"context"` and
`"event_id"`. -/
def extra_after_pops (extra : Dict) : Dict :=
  dpop (dpop extra "context") "event_id"

/-- The `entry` dict literal of `_prepare_entry` (required fields):
`service`/`environment`/`version` are `bindings.get(key, config[key])` — note
`dict.get` returns a stored `None` rather than the default — and `category`
defaults to `"app"`. -/
def baseEntry (lg : StructuredLogger) (level message nowIso : String) (eid : Value) : Dict :=
  [("timestamp", .str nowIso),
   ("level", .str level),
   ("message", .str message),
   ("service", dgetD lg.bindings "service" (.str lg.config.service)),
   ("environment", dgetD lg.bindings "environment" (.str lg.config.environment)),
   ("version", dgetD lg.bindings "version" (.str lg.config.version)),
   ("category", dgetD lg.bindings "category" (.str "app")),
   ("event_id", eid)]

/-- The entry and the remaining keyword arguments after both
`OPTIONAL_ROOT_FIELDS` loops of `_prepare_entry`. -/
def assembled_state (lg : StructuredLogger) (level message : String) (extra : Dict)
    (nowIso : String) (nowMs : Nat) (counter : Nat) : Dict × Dict :=
  applyCallFields OPTIONAL_ROOT_FIELDS
    (applyBoundFields OPTIONAL_ROOT_FIELDS lg.bindings
      (baseEntry lg level message nowIso
        (event_id_value extra (generate_event_id nowMs counter).1)),
     extra_after_pops extra)

/-- `_prepare_entry(level, message, extra)`.

The wall clock enters as `nowIso` (the ISO-8601 timestamp) and `nowMs` (epoch
milliseconds for the event id); the process-wide event-id counter is threaded
explicitly.  In source order: pop `context` (a dict initializes the context,
anything else is ignored), build the entry literal (with the eagerly generated
event id as pop default), copy non-null bound optional fields, let call-site
optional fields override or unset them, merge the remaining non-null keyword
arguments over the explicit context, attach the context, and drop null-valued
root keys. -/
def prepare_entry (lg : StructuredLogger) (level message : String) (extra : Dict)
    (nowIso : String) (nowMs : Nat) (counter : Nat) : Dict × Nat :=
  (dropNulls
    (dset (assembled_state lg level message extra nowIso nowMs counter).1 "context"
      (.dict (mergeSkipNull (context_arg_of extra)
        (assembled_state lg level message extra nowIso nowMs counter).2))),
   (generate_event_id nowMs counter).2)

/-- `StructuredLogger.log(level, message, **kwargs)`: lowercase the level,
return immediately when its weight is below the configured threshold
(`LEVEL_WEIGHTS.get(level, 0)`), otherwise prepare and emit the entry.  The
first component is the emitted entry (`none` = nothing written), the second
the event-id counter after the call. -/
def StructuredLogger.log (lg : StructuredLogger) (level message : String) (extra : Dict)
    (nowIso : String) (nowMs : Nat) (counter : Nat) : Option Dict × Nat :=
  let lv := pyLower level
  if LEVEL_WEIGHTS_get lv 0 < level_threshold lg.config then (none, counter)
  else
    let r := prepare_entry lg lv message extra nowIso nowMs counter
    (some r.1, r.2)

/-- `log_error(error, **kwargs)`: pop an explicit `context` argument, merge the
remaining keywords into it, attach the serialized error under `err`, default
`error_type`/`error_message`, and log at level `error` with `str(error)` (or
`"Error occurred"`) as the message. -/
def StructuredLogger.log_error (lg : StructuredLogger) (e : PyError) (kwargs : Dict)
    (nowIso : String) (nowMs : Nat) (counter : Nat) : Option Dict × Nat :=
  let context0 : Dict :=
    match dget kwargs "context" with
    | some (.dict d) => d
    | _ => []
  let rest := dpop kwargs "context"
  let context1 := rest.foldl (fun acc kv => dset acc kv.1 kv.2) context0
  let context2 := dset context1 "err" (.dict (serialize_error e))
  let context3 :=
    if (dget context2 "error_type").isSome then context2
    else dset context2 "error_type" (.str e.name)
  let context4 :=
    if (dget context3 "error_message").isSome then context3
    else dset context3 "error_message" (.str (if e.msg = "" then "Error occurred" else e.msg))
  let message := if e.msg = "" then "Error occurred" else e.msg
  lg.log "error" message [("context", .dict context4)] nowIso nowMs counter

/-- The module-level root logger's bindings (service, environment, version,
category from the resolved configuration). -/
def rootBindings (cfg : Config) : Dict :=
  [("service", .str cfg.service),
   ("environment", .str cfg.environment),
   ("version", .str cfg.version),
   ("category", .str "app")]

/-- The module-level `logger` under default configuration, machine mode. -/
def rootLogger : StructuredLogger :=
  { config := defaultConfig
    bindings := rootBindings defaultConfig
    pretty := false
    colorize := false }

/-! ### Pretty rendering (`_format_pretty`) -/

/-- Python truthiness for the values the renderer tests (`if trace_id:`). -/
def truthy : Value → Bool
  | .null => false
  | .bool b => b
  | .int n => n ≠ 0
  | .str s => s ≠ ""
  | .list xs => !xs.isEmpty
  | .dict xs => !xs.isEmpty

/-- Comma/space-free joining helper for the renderers. -/
def joinSep (sep : String) : List String → String
  | [] => ""
  | [x] => x
  | x :: y :: xs => x ++ sep ++ joinSep sep (y :: xs)

mutual

/-- Python `repr` of a value, as `str` falls back to for containers.  String
escaping inside `repr` is not modeled; the logger never renders containers on
the pretty line for schema-conformant entries. -/
def pyRepr : Value → String
  | .null => "None"
  | .bool true => "True"
  | .bool false => "False"
  | .int n => toString n
  | .str s => "'" ++ s ++ "'"
  | .list xs => "[" ++ pyReprList xs ++ "]"
  | .dict xs => "\x7b" ++ pyReprDict xs ++ "\x7d"

def pyReprList : List Value → String
  | [] => ""
  | [v] => pyRepr v
  | v :: w :: vs => pyRepr v ++ ", " ++ pyReprList (w :: vs)

def pyReprDict : List (String × Value) → String
  | [] => ""
  | [(k, v)] => "'" ++ k ++ "': " ++ pyRepr v
  | (k, v) :: w :: vs => "'" ++ k ++ "': " ++ pyRepr v ++ ", " ++ pyReprDict (w :: vs)

end

/-- Python `str()` of a value (`str(trace_id)`, f-string interpolation). -/
def pyStr : Value → String
  | .str s => s
  | v => pyRepr v

/-- ANSI color table `LEVEL_COLORS.get(level, "")`. -/
def LEVEL_COLORS_get (level : String) : String :=
  if level = "debug" then "\x1b[36m"
  else if level = "info" then "\x1b[32m"
  else if level = "warn" then "\x1b[33m"
  else if level = "error" then "\x1b[31m"
  else ""

def COLOR_RESET : String := "\x1b[0m"
def COLOR_DIM : String := "\x1b[2m"
def COLOR_BOLD : String := "\x1b[1m"

/-- `_apply_color`: wrap in the escape code when colorizing and the code is
non-empty. -/
def apply_color (colorize : Bool) (text code : String) : String :=
  if !colorize || code = "" then text else code ++ text ++ COLOR_RESET

/-- The `HH:MM:SS` conversion of the entry timestamp: models the
`datetime.fromisoformat`/`strftime("%H:%M:%S")` success path for the canonical
`YYYY-MM-DDTHH:MM:SS…` timestamps `_prepare_entry` writes (characters 11–18);
shorter strings model the `except` path and stay unchanged. -/
def isoToHMS (ts : String) : String :=
  if ts.length ≥ 19 then ⟨(ts.data.drop 11).take 8⟩ else ts

/-- `entry.get(k, "")` for the renderer's string-valued schema fields. -/
def getEntryStr (e : Dict) (k : String) : String :=
  match dget e k with
  | some (.str s) => s
  | _ => ""

/-- Python `str.take` on the first eight characters (`str(trace_id)[:8]`). -/
def pyTake (s : String) (n : Nat) : String :=
  ⟨s.data.take n⟩

/-- The `parts` list `_format_pretty` builds before joining: dimmed time,
colored level, bold service, category unless `"app"`, the 8-character trace
segment when `trace_id` is truthy, the duration segment when `duration_ms` is
a key of the entry, then `"-"` and the message. -/
def pretty_parts (colorize : Bool) (e : Dict) : List String :=
  let ts0 := getEntryStr e "timestamp"
  let ts := if ts0 = "" then ts0 else isoToHMS ts0
  let levelRaw := getEntryStr e "level"
  let level := pyLower (if levelRaw = "" then "info" else levelRaw)
  let message := getEntryStr e "message"
  let service := getEntryStr e "service"
  let category := getEntryStr e "category"
  (if ts ≠ "" then [apply_color colorize ts COLOR_DIM] else []) ++
  [apply_color colorize (pyUpper level) (LEVEL_COLORS_get level)] ++
  (if service ≠ "" then [apply_color colorize service COLOR_BOLD] else []) ++
  (if category ≠ "" ∧ category ≠ "app" then [category] else []) ++
  (match dget e "trace_id" with
   | some v => if truthy v then ["[" ++ pyTake (pyStr v) 8 ++ "...]"] else []
   | none => []) ++
  (match dget e "duration_ms" with
   | some v => ["(" ++ pyStr v ++ "ms)"]
   | none => []) ++
  ["-", message]

/-- Model of `json.dumps(context, ensure_ascii=False)` for the indented
context dump.  The two-space indentation layout of `indent=2` is not
reproduced — no claim concerns the context dump's text — but keys, values and
nesting are. -/
def jsonDump (d : Dict) : String :=
  "\x7b" ++ joinSep ", " (d.map (fun kv => "\x22" ++ kv.1 ++ "\x22: " ++ pyRepr kv.2)) ++ "\x7d"

/-- `_format_pretty`: the joined non-empty parts, followed by the dimmed
context dump when the entry's context is non-empty.  Entries reaching the
renderer always carry a dict under `"context"` (see `prepare_entry`). -/
def format_pretty (colorize : Bool) (e : Dict) : String :=
  let line := joinSep " " ((pretty_parts colorize e).filter (fun p => p ≠ ""))
  let ctx : Dict :=
    match dget e "context" with
    | some (.dict d) => d
    | _ => []
  if ctx.isEmpty then line
  else line ++ "\n" ++ apply_color colorize (jsonDump ctx) COLOR_DIM

/-- The full root key vocabulary of an assembled entry: the eight required
fields, the eight optional fields, and `context`. -/
def ROOT_ENTRY_KEYS : List String :=
  ["timestamp", "level", "message", "service",
   "environment", "version", "category", "event_id"] ++
  OPTIONAL_ROOT_FIELDS ++ ["context"]

/-! ### The spec's reading of the pretty line

The specification describes the pretty line as
`[time] LEVEL service [category] [traceId8...] (Nms) - message` with the
category segment omitted for `"app"`, the trace segment only for a bound
`trace_id`, and the duration segment only when `duration_ms` is present.
These definitions spell out that decomposition so it can be compared with
`pretty_parts` as translated from the code. -/

/-- Spec decomposition: the time/level/service prefix of the pretty line. -/
def headSegments (colorize : Bool) (e : Dict) : List String :=
  let ts0 := getEntryStr e "timestamp"
  let ts := if ts0 = "" then ts0 else isoToHMS ts0
  let levelRaw := getEntryStr e "level"
  let level := pyLower (if levelRaw = "" then "info" else levelRaw)
  let service := getEntryStr e "service"
  (if ts ≠ "" then [apply_color colorize ts COLOR_DIM] else []) ++
  [apply_color colorize (pyUpper level) (LEVEL_COLORS_get level)] ++
  (if service ≠ "" then [apply_color colorize service COLOR_BOLD] else [])

/-- Spec decomposition: the category segment, omitted for `""` and `"app"`. -/
def categorySegment (e : Dict) : List String :=
  if getEntryStr e "category" ≠ "" ∧ getEntryStr e "category" ≠ "app" then
    [getEntryStr e "category"]
  else []

/-- Spec decomposition: the trace segment, present only for a truthy
`trace_id`, shown as its first eight characters plus `"..."`. -/
def traceSegment (e : Dict) : List String :=
  match dget e "trace_id" with
  | some v => if truthy v then ["[" ++ pyTake (pyStr v) 8 ++ "...]"] else []
  | none => []

/-- Spec decomposition: the duration segment, present exactly when
`duration_ms` is a key of the entry. -/
def durationSegment (e : Dict) : List String :=
  match dget e "duration_ms" with
  | some v => ["(" ++ pyStr v ++ "ms)"]
  | none => []

/-- A sequence of `generate_event_id` calls at the given clock readings,
threading the counter: the ids and counters of each call in order. -/
def runGen : List Nat → Nat → List (String × Nat)
  | [], _ => []
  | t :: ts, c => generate_event_id t c :: runGen ts (generate_event_id t c).2

/-! ### Lemmas: the dict model -/

@[simp] theorem dget_nil (k : String) : dget [] k = none := rfl

theorem dget_cons (k' : String) (v : Value) (rest : Dict) (k : String) :
    dget ((k', v) :: rest) k = if k' = k then some v else dget rest k := rfl

@[simp] theorem dget_dset_self (d : Dict) (k : String) (v : Value) :
    dget (dset d k v) k = some v := by
  induction d with
  | nil => simp [dset, dget]
  | cons p rest ih =>
    obtain ⟨k', v'⟩ := p
    by_cases h : k' = k <;> simp [dset, dget, h, ih]

theorem dget_dset_ne (d : Dict) (k k' : String) (v : Value) (h : k ≠ k') :
    dget (dset d k v) k' = dget d k' := by
  induction d with
  | nil => simp [dset, dget, h]
  | cons p rest ih =>
    obtain ⟨k₁, v₁⟩ := p
    by_cases h₁ : k₁ = k
    · subst h₁; simp [dset, dget, h]
    · simp [dset, dget, h₁, ih]

@[simp] theorem dget_dpop_self (d : Dict) (k : String) :
    dget (dpop d k) k = none := by
  induction d with
  | nil => simp [dpop]
  | cons p rest ih =>
    obtain ⟨k₁, v₁⟩ := p
    by_cases h₁ : k₁ = k
    · subst h₁; simpa [dpop, List.filter] using ih
    · simpa [dpop, List.filter, h₁, dget_cons] using ih

theorem dget_dpop_ne (d : Dict) (k k' : String) (h : k' ≠ k) :
    dget (dpop d k) k' = dget d k' := by
  induction d with
  | nil => simp [dpop]
  | cons p rest ih =>
    obtain ⟨k₁, v₁⟩ := p
    by_cases h₁ : k₁ = k
    · subst h₁
      simpa [dpop, List.filter, dget_cons, Ne.symm h] using ih
    · by_cases h₂ : k₁ = k'
      · subst h₂; simp [dpop, List.filter, h₁, dget_cons]
      · simpa [dpop, List.filter, h₁, dget_cons, h₂] using ih

/-- Keys added by `dset` are the given key only. -/
theorem dget_dset_isSome (d : Dict) (k k' : String) (v : Value)
    (h : (dget (dset d k v) k').isSome) :
    k' = k ∨ (dget d k').isSome := by
  by_cases hk : k' = k
  · exact Or.inl hk
  · right
    rwa [dget_dset_ne d k k' v (fun e => hk e.symm)] at h

/-- `dget` through `dpop` is at most `dget`. -/
theorem dget_dpop_isSome (d : Dict) (k k' : String)
    (h : (dget (dpop d k) k').isSome) : (dget d k').isSome := by
  by_cases hk : k' = k
  · subst hk; simp at h
  · rwa [dget_dpop_ne d k k' hk] at h

/-- A value found after filtering out nulls is never null. -/
theorem dget_filter_not_null (d : Dict) (k : String) (v : Value)
    (h : dget (d.filter (fun p => !p.2.isNull)) k = some v) :
    v.isNull = false := by
  induction d with
  | nil => simp [dget] at h
  | cons p rest ih =>
    obtain ⟨k₁, v₁⟩ := p
    by_cases hnull : v₁.isNull
    · rw [List.filter_cons_of_neg (by simp [hnull])] at h
      exact ih h
    · rw [List.filter_cons_of_pos (by simp [hnull])] at h
      rw [dget_cons] at h
      by_cases hk : k₁ = k
      · simp only [hk, if_pos rfl] at h
        cases h
        simpa using hnull
      · rw [if_neg hk] at h
        exact ih h

/-- The serialize fold never touches a key that none of its pairs carry. -/
theorem serializeFold_dget_of_not_mem (attrs : Dict) (acc : Dict) (k : String)
    (h : ∀ kv ∈ attrs, kv.1 ≠ k) :
    dget (attrs.foldl serializeStep acc) k = dget acc k := by
  induction attrs generalizing acc with
  | nil => rfl
  | cons kv rest ih =>
    have hk : kv.1 ≠ k := h kv (List.mem_cons_self kv rest)
    have hrest : ∀ kv' ∈ rest, kv'.1 ≠ k := fun kv' hm => h kv' (List.mem_cons_of_mem kv hm)
    rw [List.foldl_cons, ih _ hrest]
    unfold serializeStep
    by_cases h1 : pyStartsWith kv.1 "_"
    · simp [h1]
    · by_cases h2 : kv.1 ∈ SAFE_ATTRIBUTES
      · simp [h1, h2, dget_dset_ne _ _ _ _ hk]
      · simp [h1, h2]

/-- Keys produced by the serialize fold: either already in the accumulator or
on the allowlist. -/
theorem serializeFold_keys (attrs : Dict) (acc : Dict) (k : String)
    (h : (dget (attrs.foldl serializeStep acc) k).isSome) :
    (dget acc k).isSome ∨ k ∈ SAFE_ATTRIBUTES := by
  induction attrs generalizing acc with
  | nil => exact Or.inl h
  | cons kv rest ih =>
    rw [List.foldl_cons] at h
    rcases ih _ h with h' | h'
    · unfold serializeStep at h'
      by_cases h1 : pyStartsWith kv.1 "_"
      · rw [if_pos h1] at h'
        exact Or.inl h'
      · by_cases h2 : kv.1 ∈ SAFE_ATTRIBUTES
        · rw [if_neg h1, if_pos h2] at h'
          rcases dget_dset_isSome _ _ _ _ h' with rfl | h''
          · exact Or.inr h2
          · exact Or.inl h''
        · rw [if_neg h1, if_neg h2] at h'
          exact Or.inl h'
    · exact Or.inr h'

/-- Every key of `serialize_error`'s output is `name`, `message`, `stack`, or
an allowlisted attribute name. -/
theorem serialize_error_keys (e : PyError) (k : String)
    (h : (dget (serialize_error e) k).isSome) :
    k ∈ "name" :: "message" :: "stack" :: SAFE_ATTRIBUTES := by
  unfold serialize_error at h
  simp only at h
  have hcore :
      (dget (e.attrs.foldl serializeStep
        [("name", Value.str e.name),
         ("message", Value.str (if e.msg = "" then "Error" else e.msg))]) k).isSome →
      k ∈ "name" :: "message" :: "stack" :: SAFE_ATTRIBUTES := by
    intro hc
    rcases serializeFold_keys _ _ _ hc with hbase | hsafe
    · rw [dget_cons] at hbase
      by_cases h1 : "name" = k
      · simp [← h1]
      · rw [if_neg h1, dget_cons] at hbase
        by_cases h2 : "message" = k
        · simp [← h2]
        · rw [if_neg h2] at hbase
          simp [dget] at hbase
    · simp [hsafe]
  by_cases hs : e.stack = ""
  · rw [if_pos hs] at h
    exact hcore h
  · rw [if_neg hs] at h
    rcases dget_dset_isSome _ _ _ _ h with rfl | h'
    · simp
    · exact hcore h'

/-- The serialize fold copies a uniquely-keyed allowlisted attribute, redacted. -/
theorem serializeFold_copies (attrs : Dict) (acc : Dict) (k : String) (v : Value)
    (hnd : (attrs.map Prod.fst).Nodup)
    (hget : dget attrs k = some v) (hsafe : k ∈ SAFE_ATTRIBUTES) :
    dget (attrs.foldl serializeStep acc) k = some (redact_sensitive_data v) := by
  induction attrs generalizing acc with
  | nil => simp [dget] at hget
  | cons kv rest ih =>
    obtain ⟨k₁, v₁⟩ := kv
    rw [List.map_cons, List.nodup_cons] at hnd
    rw [dget_cons] at hget
    by_cases hk : k₁ = k
    · subst hk
      rw [if_pos rfl] at hget
      cases hget
      have hpriv : ¬ pyStartsWith k₁ "_" = true := by
        fin_cases hsafe <;> decide
      rw [List.foldl_cons]
      have hne : ∀ kv' ∈ rest, kv'.1 ≠ k₁ := by
        intro kv' hm he
        have hmem : k₁ ∈ List.map Prod.fst rest := by
          rw [← he]; exact List.mem_map_of_mem Prod.fst hm
        exact hnd.1 hmem
      rw [serializeFold_dget_of_not_mem _ _ _ hne]
      simp [serializeStep, hpriv, hsafe]
    · rw [if_neg hk] at hget
      rw [List.foldl_cons]
      exact ih _ hnd.2 hget

/-- An attribute key whose value `serialize_error` reports always passes the
redaction check; this names the two facts the claims need in one bundle. -/
theorem serialize_error_copies (e : PyError) (k : String) (v : Value)
    (hnd : (e.attrs.map Prod.fst).Nodup)
    (hget : dget e.attrs k = some v) (hsafe : k ∈ SAFE_ATTRIBUTES) :
    dget (serialize_error e) k = some (redact_sensitive_data v) := by
  unfold serialize_error
  simp only
  have hstack : k ≠ "stack" := by fin_cases hsafe <;> decide
  have hcore := serializeFold_copies e.attrs
    [("name", Value.str e.name),
     ("message", Value.str (if e.msg = "" then "Error" else e.msg))] k v hnd hget hsafe
  by_cases hs : e.stack = ""
  · rw [if_pos hs]; exact hcore
  · rw [if_neg hs, dget_dset_ne _ _ _ _ (fun h => hstack h.symm)]
    exact hcore

/-! ### Lemmas about the assembly pipeline -/

theorem dget_eq_none_iff (d : Dict) (k : String) :
    dget d k = none ↔ ∀ kv ∈ d, kv.1 ≠ k := by
  induction d with
  | nil => simp [dget]
  | cons p rest ih =>
    obtain ⟨k₁, v₁⟩ := p
    rw [dget_cons]
    by_cases h : k₁ = k
    · subst h; simp
    · simp [h, ih]

theorem mergeSkipNull_dget_of_not_mem (base updates : Dict) (k : String)
    (h : ∀ kv ∈ updates, kv.1 ≠ k) :
    dget (mergeSkipNull base updates) k = dget base k := by
  induction updates generalizing base with
  | nil => rfl
  | cons kv rest ih =>
    have hk : kv.1 ≠ k := h kv (List.mem_cons_self kv rest)
    have hrest : ∀ kv' ∈ rest, kv'.1 ≠ k := fun kv' hm => h kv' (List.mem_cons_of_mem kv hm)
    unfold mergeSkipNull at *
    rw [List.foldl_cons, ih _ hrest]
    by_cases hn : kv.2.isNull
    · rw [if_pos hn]
    · rw [if_neg hn, dget_dset_ne _ _ _ _ hk]

theorem mergeSkipNull_dget_of_none (base updates : Dict) (k : String)
    (h : dget updates k = none) :
    dget (mergeSkipNull base updates) k = dget base k :=
  mergeSkipNull_dget_of_not_mem base updates k ((dget_eq_none_iff updates k).mp h)

theorem mergeSkipNull_cons (base : Dict) (kv : String × Value) (rest : Dict) :
    mergeSkipNull base (kv :: rest) =
      mergeSkipNull (if kv.2.isNull then base else dset base kv.1 kv.2) rest := rfl

/-- The shared skip-null merge on a uniquely-keyed update dict: a null update
leaves the base binding, a non-null update overrides it. -/
theorem mergeSkipNull_dget_of_some (base updates : Dict) (k : String) (v : Value)
    (hnd : (updates.map Prod.fst).Nodup) (h : dget updates k = some v) :
    dget (mergeSkipNull base updates) k =
      if v.isNull then dget base k else some v := by
  induction updates generalizing base with
  | nil => simp [dget] at h
  | cons kv rest ih =>
    obtain ⟨k₁, v₁⟩ := kv
    rw [List.map_cons, List.nodup_cons] at hnd
    rw [dget_cons] at h
    rw [mergeSkipNull_cons]
    by_cases hk : k₁ = k
    · subst hk
      rw [if_pos rfl] at h
      injection h with h
      rw [← h]
      have hrest : ∀ kv' ∈ rest, kv'.1 ≠ k₁ := by
        intro kv' hm he
        have hmem : k₁ ∈ List.map Prod.fst rest := by
          rw [← he]; exact List.mem_map_of_mem Prod.fst hm
        exact hnd.1 hmem
      rw [mergeSkipNull_dget_of_not_mem _ _ _ hrest]
      by_cases hn : v₁.isNull
      · rw [if_pos hn, if_pos hn]
      · rw [if_neg hn, if_neg hn, dget_dset_self]
    · rw [if_neg hk] at h
      by_cases hn : v₁.isNull
      · rw [if_pos hn]
        exact ih _ hnd.2 h
      · rw [if_neg hn, ih _ hnd.2 h]
        by_cases hvn : v.isNull
        · rw [if_pos hvn, if_pos hvn, dget_dset_ne _ _ _ _ hk]
        · rw [if_neg hvn, if_neg hvn]

theorem dget_boundStep_ne (b e : Dict) (f k : String) (hk : k ≠ f) :
    dget (boundStep b e f) k = dget e k := by
  unfold boundStep
  cases hb : dget b f with
  | none => rfl
  | some v =>
    by_cases hn : v.isNull
    · simp [hn]
    · simp [hn, dget_dset_ne _ _ _ _ (fun he => hk he.symm)]

theorem dget_boundStep_isSome (b e : Dict) (f k : String)
    (h : (dget (boundStep b e f) k).isSome) :
    (dget e k).isSome ∨ k = f := by
  by_cases hk : k = f
  · exact Or.inr hk
  · rw [dget_boundStep_ne b e f k hk] at h
    exact Or.inl h

theorem applyBoundFields_cons (f : String) (fs : List String) (b e : Dict) :
    applyBoundFields (f :: fs) b e = applyBoundFields fs b (boundStep b e f) := rfl

theorem applyBoundFields_dget_of_not_mem (fields : List String) (b e : Dict) (k : String)
    (h : k ∉ fields) :
    dget (applyBoundFields fields b e) k = dget e k := by
  induction fields generalizing e with
  | nil => rfl
  | cons f fs ih =>
    have hf : k ≠ f := fun he => h (he ▸ List.mem_cons_self f fs)
    have hfs : k ∉ fs := fun hm => h (List.mem_cons_of_mem f hm)
    rw [applyBoundFields_cons, ih _ hfs, dget_boundStep_ne _ _ _ _ hf]

theorem applyBoundFields_keys (fields : List String) (b e : Dict) (k : String)
    (h : (dget (applyBoundFields fields b e) k).isSome) :
    (dget e k).isSome ∨ k ∈ fields := by
  induction fields generalizing e with
  | nil => exact Or.inl h
  | cons f fs ih =>
    rw [applyBoundFields_cons] at h
    rcases ih _ h with h' | h'
    · rcases dget_boundStep_isSome _ _ _ _ h' with h'' | rfl
      · exact Or.inl h''
      · exact Or.inr (List.mem_cons_self k fs)
    · exact Or.inr (List.mem_cons_of_mem f h')

theorem dget_callStep_fst_ne (st : Dict × Dict) (f k : String) (hk : k ≠ f) :
    dget (callStep st f).1 k = dget st.1 k := by
  unfold callStep
  cases hx : dget st.2 f with
  | none => rfl
  | some v =>
    by_cases hn : v.isNull
    · simp [hn, dget_dpop_ne _ _ _ hk]
    · simp [hn, dget_dset_ne _ _ _ _ (fun he => hk he.symm)]

theorem dget_callStep_snd_ne (st : Dict × Dict) (f k : String) (hk : k ≠ f) :
    dget (callStep st f).2 k = dget st.2 k := by
  unfold callStep
  cases hx : dget st.2 f with
  | none => rfl
  | some v =>
    by_cases hn : v.isNull
    · simp [hn, dget_dpop_ne _ _ _ hk]
    · simp [hn, dget_dpop_ne _ _ _ hk]

theorem dget_callStep_fst_isSome (st : Dict × Dict) (f k : String)
    (h : (dget (callStep st f).1 k).isSome) :
    (dget st.1 k).isSome ∨ k = f := by
  by_cases hk : k = f
  · exact Or.inr hk
  · rw [dget_callStep_fst_ne st f k hk] at h
    exact Or.inl h

/-- A processed field is removed from the call's keyword arguments. -/
theorem dget_callStep_snd_self (st : Dict × Dict) (f : String) :
    dget (callStep st f).2 f = none := by
  unfold callStep
  cases hx : dget st.2 f with
  | none => exact hx
  | some v =>
    by_cases hn : v.isNull
    · simp [hn]
    · simp [hn]

theorem dget_callStep_snd_none (st : Dict × Dict) (f k : String)
    (h : dget st.2 k = none) :
    dget (callStep st f).2 k = none := by
  by_cases hk : k = f
  · subst hk; exact dget_callStep_snd_self st k
  · rw [dget_callStep_snd_ne st f k hk]; exact h

theorem applyCallFields_cons (f : String) (fs : List String) (st : Dict × Dict) :
    applyCallFields (f :: fs) st = applyCallFields fs (callStep st f) := rfl

theorem applyCallFields_fst_of_not_mem (fields : List String) (st : Dict × Dict) (k : String)
    (h : k ∉ fields) :
    dget (applyCallFields fields st).1 k = dget st.1 k := by
  induction fields generalizing st with
  | nil => rfl
  | cons f fs ih =>
    have hf : k ≠ f := fun he => h (he ▸ List.mem_cons_self f fs)
    have hfs : k ∉ fs := fun hm => h (List.mem_cons_of_mem f hm)
    rw [applyCallFields_cons, ih _ hfs, dget_callStep_fst_ne _ _ _ hf]

theorem applyCallFields_snd_of_not_mem (fields : List String) (st : Dict × Dict) (k : String)
    (h : k ∉ fields) :
    dget (applyCallFields fields st).2 k = dget st.2 k := by
  induction fields generalizing st with
  | nil => rfl
  | cons f fs ih =>
    have hf : k ≠ f := fun he => h (he ▸ List.mem_cons_self f fs)
    have hfs : k ∉ fs := fun hm => h (List.mem_cons_of_mem f hm)
    rw [applyCallFields_cons, ih _ hfs, dget_callStep_snd_ne _ _ _ hf]

theorem applyCallFields_keys (fields : List String) (st : Dict × Dict) (k : String)
    (h : (dget (applyCallFields fields st).1 k).isSome) :
    (dget st.1 k).isSome ∨ k ∈ fields := by
  induction fields generalizing st with
  | nil => exact Or.inl h
  | cons f fs ih =>
    rw [applyCallFields_cons] at h
    rcases ih _ h with h' | h'
    · rcases dget_callStep_fst_isSome _ _ _ h' with h'' | rfl
      · exact Or.inl h''
      · exact Or.inr (List.mem_cons_self k fs)
    · exact Or.inr (List.mem_cons_of_mem f h')

theorem applyCallFields_snd_of_none (fields : List String) (st : Dict × Dict) (k : String)
    (h : dget st.2 k = none) :
    dget (applyCallFields fields st).2 k = none := by
  induction fields generalizing st with
  | nil => exact h
  | cons f fs ih =>
    rw [applyCallFields_cons]
    exact ih _ (dget_callStep_snd_none _ _ _ h)

/-- Every processed field is removed from the remaining keyword arguments. -/
theorem applyCallFields_snd_of_mem (fields : List String) (st : Dict × Dict) (k : String)
    (h : k ∈ fields) :
    dget (applyCallFields fields st).2 k = none := by
  induction fields generalizing st with
  | nil => cases h
  | cons f fs ih =>
    rw [applyCallFields_cons]
    rcases List.mem_cons.mp h with rfl | hmem
    · exact applyCallFields_snd_of_none fs _ k (dget_callStep_snd_self st k)
    · exact ih _ hmem

theorem dropNulls_dget_of_some (e : Dict) (k : String) (v : Value)
    (h : dget e k = some v) (hn : v.isNull = false) :
    dget (dropNulls e) k = some v := by
  induction e with
  | nil => simp [dget] at h
  | cons p rest ih =>
    obtain ⟨k₁, v₁⟩ := p
    rw [dget_cons] at h
    by_cases hk : k₁ = k
    · subst hk
      rw [if_pos rfl] at h
      cases h
      rw [dropNulls, List.filter_cons_of_pos (by simp [hn])]
      simp [dget_cons]
    · rw [if_neg hk] at h
      by_cases h₁ : v₁.isNull
      · rw [dropNulls, List.filter_cons_of_neg (by simp [h₁])]
        exact ih h
      · rw [dropNulls, List.filter_cons_of_pos (by simp [h₁]), dget_cons, if_neg hk]
        exact ih h

theorem dropNulls_dget_of_none (e : Dict) (k : String)
    (h : dget e k = none) :
    dget (dropNulls e) k = none := by
  rw [dget_eq_none_iff] at h ⊢
  intro kv hm
  exact h kv (List.mem_of_mem_filter hm)

theorem dropNulls_keys (e : Dict) (k : String)
    (h : (dget (dropNulls e) k).isSome) : (dget e k).isSome := by
  cases he : dget e k with
  | none => rw [dropNulls_dget_of_none e k he] at h; cases h
  | some v => rfl

/-- A value surviving the null sweep is never null. -/
theorem dropNulls_not_null (e : Dict) (k : String) (v : Value)
    (h : dget (dropNulls e) k = some v) : v.isNull = false :=
  dget_filter_not_null e k v h

/-! ### Lemmas about the assembled entry -/

theorem dget_isSome_mem_keys (d : Dict) (k : String)
    (h : (dget d k).isSome) : k ∈ d.map Prod.fst := by
  induction d with
  | nil => simp [dget] at h
  | cons p rest ih =>
    obtain ⟨k₁, v₁⟩ := p
    rw [dget_cons] at h
    by_cases hk : k₁ = k
    · subst hk; exact List.mem_cons_self _ _
    · rw [if_neg hk] at h
      exact List.mem_cons_of_mem _ (ih h)

theorem baseEntry_keys (lg : StructuredLogger) (level message nowIso : String) (eid : Value) :
    (baseEntry lg level message nowIso eid).map Prod.fst =
      ["timestamp", "level", "message", "service",
       "environment", "version", "category", "event_id"] := rfl

theorem dget_baseEntry_event_id (lg : StructuredLogger)
    (level message nowIso : String) (eid : Value) :
    dget (baseEntry lg level message nowIso eid) "event_id" = some eid := rfl

/-- Every root key of a prepared entry is in the fixed vocabulary. -/
theorem prepare_entry_root_closed (lg : StructuredLogger) (level message : String)
    (extra : Dict) (nowIso : String) (nowMs counter : Nat) (k : String)
    (h : (dget (prepare_entry lg level message extra nowIso nowMs counter).1 k).isSome) :
    k ∈ ROOT_ENTRY_KEYS := by
  have h1 := dropNulls_keys _ _ h
  rcases dget_dset_isSome _ _ _ _ h1 with rfl | h2
  · simp [ROOT_ENTRY_KEYS]
  · rcases applyCallFields_keys _ _ _ h2 with h3 | h3
    · rcases applyBoundFields_keys _ _ _ _ h3 with h4 | h4
      · have h5 := dget_isSome_mem_keys _ _ h4
        rw [baseEntry_keys] at h5
        simp only [ROOT_ENTRY_KEYS, List.mem_append]
        exact Or.inl (Or.inl h5)
      · simp only [ROOT_ENTRY_KEYS, List.mem_append]
        exact Or.inl (Or.inr h4)
    · simp only [ROOT_ENTRY_KEYS, List.mem_append]
      exact Or.inl (Or.inr h3)

/-- The context attached to a prepared entry: the explicitly passed context
dict overlaid with the remaining non-null keyword arguments. -/
theorem prepare_entry_context (lg : StructuredLogger) (level message : String)
    (extra : Dict) (nowIso : String) (nowMs counter : Nat) :
    dget (prepare_entry lg level message extra nowIso nowMs counter).1 "context" =
      some (.dict (mergeSkipNull (context_arg_of extra)
        (assembled_state lg level message extra nowIso nowMs counter).2)) := by
  apply dropNulls_dget_of_some
  · exact dget_dset_self _ _ _
  · rfl

/-- The event id slot of a prepared entry: the caller-supplied value when the
keyword is present, the generated id otherwise (provided the resulting value
is not null, in which case the root sweep keeps it). -/
theorem prepare_entry_event_id (lg : StructuredLogger) (level message : String)
    (extra : Dict) (nowIso : String) (nowMs counter : Nat)
    (hnn : (event_id_value extra (generate_event_id nowMs counter).1).isNull = false) :
    dget (prepare_entry lg level message extra nowIso nowMs counter).1 "event_id" =
      some (event_id_value extra (generate_event_id nowMs counter).1) := by
  apply dropNulls_dget_of_some
  · rw [dget_dset_ne _ _ _ _ (by decide)]
    show dget (assembled_state lg level message extra nowIso nowMs counter).1 "event_id" = _
    rw [assembled_state, applyCallFields_fst_of_not_mem _ _ _ (by decide),
      applyBoundFields_dget_of_not_mem _ _ _ _ (by decide)]
    exact dget_baseEntry_event_id _ _ _ _ _
  · exact hnn

/-- The remaining keyword arguments after both pops and the optional-field
loop never contain `event_id`. -/
theorem assembled_state_snd_event_id (lg : StructuredLogger) (level message : String)
    (extra : Dict) (nowIso : String) (nowMs counter : Nat) :
    dget (assembled_state lg level message extra nowIso nowMs counter).2 "event_id" = none := by
  rw [assembled_state]
  apply applyCallFields_snd_of_none
  exact dget_dpop_self _ _

theorem runGen_snd_gt (ts : List Nat) (c x : Nat)
    (h : x ∈ (runGen ts c).map Prod.snd) : c < x := by
  induction ts generalizing c with
  | nil => simp [runGen] at h
  | cons t ts ih =>
    rw [runGen, List.map_cons] at h
    rcases List.mem_cons.mp h with rfl | hmem
    · exact Nat.lt_succ_self c
    · exact Nat.lt_trans (Nat.lt_succ_self c) (ih _ hmem)

theorem runGen_chain (ts : List Nat) (c : Nat) :
    List.Chain' (· < ·) ((runGen ts c).map Prod.snd) := by
  induction ts generalizing c with
  | nil => simp [runGen]
  | cons t ts ih =>
    rw [runGen, List.map_cons]
    refine List.chain'_cons'.mpr ⟨?_, ih _⟩
    intro y hy
    exact runGen_snd_gt _ _ _ (List.mem_of_mem_head? hy)


theorem dpop_sublist (d : Dict) (k : String) : List.Sublist (dpop d k) d :=
  List.filter_sublist d

theorem callStep_snd_sublist (st : Dict × Dict) (f : String) :
    List.Sublist (callStep st f).2 st.2 := by
  unfold callStep
  cases hx : dget st.2 f with
  | none => exact List.Sublist.refl _
  | some v =>
    by_cases hn : v.isNull
    · simpa [hn] using dpop_sublist st.2 f
    · simpa [hn] using dpop_sublist st.2 f

theorem applyCallFields_snd_sublist (fields : List String) (st : Dict × Dict) :
    List.Sublist (applyCallFields fields st).2 st.2 := by
  induction fields generalizing st with
  | nil => exact List.Sublist.refl _
  | cons f fs ih =>
    rw [applyCallFields_cons]
    exact (ih _).trans (callStep_snd_sublist st f)

theorem nodup_keys_sublist (d d' : Dict) (hs : List.Sublist d' d)
    (h : (d.map Prod.fst).Nodup) : (d'.map Prod.fst).Nodup :=
  h.sublist (hs.map Prod.fst)

/-! ### The claims -/

/-- Claim C1: a log call whose level weight is below the configured threshold
is a no-op — nothing is emitted and the event-id counter is unchanged — while
a call at or above the threshold emits the prepared entry and consumes exactly
one event id, i.e. an id is assigned only after the filter passes. -/
theorem claim_C1 (lg : StructuredLogger) (level message : String) (extra : Dict)
    (nowIso : String) (nowMs counter : Nat) :
    (LEVEL_WEIGHTS_get (pyLower level) 0 < level_threshold lg.config →
      lg.log level message extra nowIso nowMs counter = (none, counter)) ∧
    (¬ LEVEL_WEIGHTS_get (pyLower level) 0 < level_threshold lg.config →
      lg.log level message extra nowIso nowMs counter =
        (some (prepare_entry lg (pyLower level) message extra nowIso nowMs counter).1,
         counter + 1)) := by
  constructor
  · intro h
    simp [StructuredLogger.log, h]
  · intro h
    simp [StructuredLogger.log, h, prepare_entry, generate_event_id]

/-- Witness for C1: with the default `info` threshold, a `debug` call writes
nothing and leaves the counter at 5. -/
theorem claim_C1_witness :
    rootLogger.log "debug" "m" [] "t" 1 5 = (none, 5) :=
  (claim_C1 rootLogger "debug" "m" [] "t" 1 5).1 (by decide)

/-- Claim C2 counterexample: binding `request_id` to the null marker in
`child` does not remove the parent's binding — the child's effective bindings
still contain `request_id = "r1"`, refuting the claimed unset semantics. -/
theorem claim_C2_counterexample :
    dget ((StructuredLogger.child
      { config := defaultConfig, bindings := [("request_id", Value.str "r1")],
        pretty := false, colorize := false }
      [("request_id", Value.null)]).bindings) "request_id" = some (Value.str "r1") ∧
    (dget ((StructuredLogger.child
      { config := defaultConfig, bindings := [("request_id", Value.str "r1")],
        pretty := false, colorize := false }
      [("request_id", Value.null)]).bindings) "request_id").isSome = true :=
  ⟨rfl, rfl⟩

/-- Claim C2 (amended): in `child`/`bind` a key mapped to the null marker is
ignored — the child inherits the parent's binding for it unchanged (the null
neither shadows nor removes) — while a non-null key overrides and an absent
key inherits. -/
theorem claim_C2_amended (lg : StructuredLogger) (b : Dict) (k : String)
    (hnd : (b.map Prod.fst).Nodup) :
    (dget b k = some Value.null →
      dget (lg.child b).bindings k = dget lg.bindings k) ∧
    (∀ v, dget b k = some v → v.isNull = false →
      dget (lg.child b).bindings k = some v) ∧
    (dget b k = none →
      dget (lg.child b).bindings k = dget lg.bindings k) := by
  refine ⟨fun h => ?_, fun v h hv => ?_, fun h => ?_⟩
  · have hm := mergeSkipNull_dget_of_some lg.bindings b k Value.null hnd h
    simpa [StructuredLogger.child, Value.isNull] using hm
  · have hm := mergeSkipNull_dget_of_some lg.bindings b k v hnd h
    simpa [StructuredLogger.child, hv] using hm
  · exact mergeSkipNull_dget_of_none _ _ _ h

/-- Witness for the amended C2: the child of a logger binding
`request_id = "r1"`, derived with `request_id` mapped to null, reads
`request_id` exactly as its parent does. -/
theorem claim_C2_amended_witness :
    dget ((StructuredLogger.child
      { config := defaultConfig, bindings := [("request_id", Value.str "r1")],
        pretty := false, colorize := false }
      [("request_id", Value.null)]).bindings) "request_id" =
      dget [("request_id", Value.str "r1")] "request_id" :=
  (claim_C2_amended _ [("request_id", Value.null)] "request_id" (by decide)).1 rfl

/-- Claim C4 counterexample: a null value inside an explicitly passed nested
`context` object survives into the prepared entry's context, refuting the
claim that nested nulls are dropped. -/
theorem claim_C4_counterexample :
    dget (prepare_entry rootLogger "info" "m"
      [("context", Value.dict [("a", Value.null)])] "t" 1 0).1 "context" =
      some (Value.dict [("a", Value.null)]) ∧
    dget [("a", Value.null)] "a" = some Value.null :=
  ⟨rfl, rfl⟩

/-- Claim C4 (amended): no root key of a prepared entry holds a null value —
null-valued root fields and null-valued direct keyword arguments are dropped —
but null values nested inside an explicitly passed `context` object are
retained. -/
theorem claim_C4_amended (lg : StructuredLogger) (level message : String)
    (extra : Dict) (nowIso : String) (nowMs counter : Nat) (k : String) :
    ¬ (dget (prepare_entry lg level message extra nowIso nowMs counter).1 k
        = some Value.null) := by
  intro h
  have hn := dropNulls_not_null _ _ _ h
  simp [Value.isNull] at hn

/-- Witness for the amended C4: no entry carries a null `service` at the
root. -/
theorem claim_C4_witness :
    ¬ (dget (prepare_entry rootLogger "info" "m" [] "t" 1 0).1 "service"
        = some Value.null) :=
  claim_C4_amended rootLogger "info" "m" [] "t" 1 0 "service"

/-- Claim C5: the serialized error contains only `name`, `message`, optional
`stack` and attributes from the fixed allowlist, and every copied attribute
whose string value contains a sensitive pattern (case-insensitively) is
replaced by the literal `"[REDACTED]"`. -/
theorem claim_C5 (e : PyError) :
    (∀ k, (dget (serialize_error e) k).isSome →
      k ∈ "name" :: "message" :: "stack" :: SAFE_ATTRIBUTES) ∧
    ((e.attrs.map Prod.fst).Nodup → ∀ k s,
      dget e.attrs k = some (Value.str s) → k ∈ SAFE_ATTRIBUTES →
      SENSITIVE_PATTERNS.any (fun pat => strContainsCI s pat) = true →
      dget (serialize_error e) k = some (Value.str "[REDACTED]")) := by
  constructor
  · exact serialize_error_keys e
  · intro hnd k s hget hsafe hsens
    have hc := serialize_error_copies e k (Value.str s) hnd hget hsafe
    rw [hc]
    simp [redact_sensitive_data, hsens]

/-- Witness for C5: a `code` attribute whose value mentions a password is
copied as `"[REDACTED]"`. -/
theorem claim_C5_witness :
    dget (serialize_error
      { name := "ValueError", msg := "bad",
        attrs := [("code", Value.str "the Password is hunter2")], stack := "" })
      "code" = some (Value.str "[REDACTED]") :=
  (claim_C5 _).2 (by decide) "code" _ rfl (by decide) (by decide)

/-- Claim C6 counterexample: an exception attribute named `token` — a name
matching the sensitive pattern list — is absent from the serialized output
rather than reported as `"[REDACTED]"`, refuting the claim. -/
theorem claim_C6_counterexample :
    dget (serialize_error
      { name := "RuntimeError", msg := "boom",
        attrs := [("token", Value.str "abc123")], stack := "" }) "token" = none ∧
    ¬ (dget (serialize_error
      { name := "RuntimeError", msg := "boom",
        attrs := [("token", Value.str "abc123")], stack := "" }) "token" =
        some (Value.str "[REDACTED]")) := by
  constructor
  · rfl
  · intro h
    rw [show dget (serialize_error
      { name := "RuntimeError", msg := "boom",
        attrs := [("token", Value.str "abc123")], stack := "" }) "token" = none from rfl] at h
    exact Option.noConfusion h

/-- Claim C6 (amended): an exception attribute whose name matches the
sensitive pattern list is omitted from the serialized output entirely — such
names are never on the allowlist, so they are not copied at all (value-level
redaction to `"[REDACTED]"` applies to allowlisted attributes instead). -/
theorem claim_C6_amended (e : PyError) (k : String)
    (h : SENSITIVE_PATTERNS.any (fun pat => strContainsCI k pat) = true) :
    dget (serialize_error e) k = none := by
  cases hd : dget (serialize_error e) k with
  | none => rfl
  | some v =>
    exfalso
    have hmem := serialize_error_keys e k (by rw [hd]; rfl)
    simp only [SAFE_ATTRIBUTES, List.mem_cons, List.not_mem_nil, or_false] at hmem
    rcases hmem with rfl | rfl | rfl | rfl | rfl | rfl | rfl | rfl | rfl <;>
      exact absurd h (by decide)

/-- Witness for the amended C6: an `api_token` attribute is dropped from the
serialized error. -/
theorem claim_C6_witness :
    dget (serialize_error
      { name := "OSError", msg := "x",
        attrs := [("api_token", Value.str "v")], stack := "" }) "api_token" = none :=
  claim_C6_amended _ "api_token" (by decide)

/-- Claim C7: consecutive event-id generations have strictly increasing
counter components, each id string embeds its counter after the final
underscore, and across any sequence of sequential calls the counter
components strictly increase. -/
theorem claim_C7 :
    (∀ t₁ t₂ c, (generate_event_id t₁ c).2 <
      (generate_event_id t₂ (generate_event_id t₁ c).2).2) ∧
    (∀ t c, (generate_event_id t c).1 =
      "evt_" ++ toString t ++ "_" ++ toString ((generate_event_id t c).2)) ∧
    (∀ ts c, List.Chain' (· < ·) ((runGen ts c).map Prod.snd)) :=
  ⟨fun _ _ c => Nat.lt_succ_self (c + 1), fun _ _ => rfl, fun ts c => runGen_chain ts c⟩

/-- Claim C8: every derivation — `child`, `bind`, `with_category`,
`bind_trace`, `with_request`, `create_logger` — returns a new logger value
sharing the parent's configuration and rendering flags, with bindings given by
the skip-null merge; the parent value is untouched (the code copies the
bindings dict via `{**self.bindings}`, which the value model reflects). -/
theorem claim_C8 (lg : StructuredLogger) (b : Dict) (c : String)
    (t s r u sv en ve ca : Option String) :
    lg.child b = { config := lg.config, bindings := mergeSkipNull lg.bindings b,
                   pretty := lg.pretty, colorize := lg.colorize } ∧
    lg.bindFields b = { config := lg.config, bindings := mergeSkipNull lg.bindings b,
                        pretty := lg.pretty, colorize := lg.colorize } ∧
    lg.with_category c =
      { config := lg.config,
        bindings := mergeSkipNull lg.bindings [("category", Value.str c)],
        pretty := lg.pretty, colorize := lg.colorize } ∧
    lg.bind_trace t s =
      { config := lg.config,
        bindings := mergeSkipNull lg.bindings
          [("trace_id", optVal t), ("span_id", optVal s)],
        pretty := lg.pretty, colorize := lg.colorize } ∧
    lg.with_request r u =
      { config := lg.config,
        bindings := mergeSkipNull lg.bindings
          [("request_id", optVal r), ("user_hash", optVal u)],
        pretty := lg.pretty, colorize := lg.colorize } ∧
    lg.create_logger sv en ve ca =
      { config := lg.config,
        bindings := mergeSkipNull lg.bindings
          [("service", Value.str (orElseStr sv lg.config.service)),
           ("environment", Value.str (orElseStr en lg.config.environment)),
           ("version", Value.str (orElseStr ve lg.config.version)),
           ("category", Value.str (orElseStr ca "app"))],
        pretty := lg.pretty, colorize := lg.colorize } :=
  ⟨rfl, rfl, rfl, rfl, rfl, rfl⟩

/-- Claim C3 counterexample: the keyword argument `service="x"` lands inside
`context` while the entry also carries `service` at the root, so a key can
appear both at the root and inside the context mapping. -/
theorem claim_C3_counterexample :
    dget (prepare_entry rootLogger "info" "m" [("service", Value.str "x")] "t" 1 0).1
      "service" = some (Value.str "unknown-service") ∧
    dget (prepare_entry rootLogger "info" "m" [("service", Value.str "x")] "t" 1 0).1
      "context" = some (Value.dict [("service", Value.str "x")]) :=
  ⟨rfl, rfl⟩

/-- Claim C3 (amended): the root keys of a prepared entry come from the closed
vocabulary (eight required fields, the eight named optional fields, and
`context`); every non-null direct keyword argument outside the schema
(`OPTIONAL_ROOT_FIELDS`, `context`, `event_id`) lands inside `context`; and a
direct keyword naming one of the eight optional fields never lands in
`context` — its context slot comes only from an explicitly passed `context`
object.  A key may still appear both at root and inside `context` when a
keyword collides with a required root field name or when an explicit `context`
object carries a root field's name. -/
theorem claim_C3_amended (lg : StructuredLogger) (level message : String) (extra : Dict)
    (nowIso : String) (nowMs counter : Nat) :
    (∀ k, (dget (prepare_entry lg level message extra nowIso nowMs counter).1 k).isSome →
      k ∈ ROOT_ENTRY_KEYS) ∧
    (∃ ctx, dget (prepare_entry lg level message extra nowIso nowMs counter).1 "context" =
        some (Value.dict ctx) ∧
      ((extra.map Prod.fst).Nodup → ∀ k v, dget extra k = some v → v.isNull = false →
        k ∉ OPTIONAL_ROOT_FIELDS → k ≠ "context" → k ≠ "event_id" →
        dget ctx k = some v) ∧
      (∀ k, k ∈ OPTIONAL_ROOT_FIELDS → dget ctx k = dget (context_arg_of extra) k)) := by
  refine ⟨prepare_entry_root_closed lg level message extra nowIso nowMs counter,
    ⟨_, prepare_entry_context lg level message extra nowIso nowMs counter, ?_, ?_⟩⟩
  · intro hnd k v hget hnn hbopt hctx heid
    have hx2 : dget (assembled_state lg level message extra nowIso nowMs counter).2 k
        = some v := by
      rw [assembled_state, applyCallFields_snd_of_not_mem _ _ _ hbopt]
      show dget (extra_after_pops extra) k = some v
      rw [extra_after_pops, dget_dpop_ne _ _ _ heid, dget_dpop_ne _ _ _ hctx]
      exact hget
    have hsub : List.Sublist (assembled_state lg level message extra nowIso nowMs counter).2 extra := by
      rw [assembled_state]
      refine (applyCallFields_snd_sublist _ _).trans ?_
      show List.Sublist (extra_after_pops extra) extra
      exact (dpop_sublist _ _).trans (dpop_sublist _ _)
    have hnd2 := nodup_keys_sublist extra _ hsub hnd
    rw [mergeSkipNull_dget_of_some _ _ _ _ hnd2 hx2, if_neg (by simp [hnn])]
  · intro k hk
    have hx2 : dget (assembled_state lg level message extra nowIso nowMs counter).2 k
        = none := by
      rw [assembled_state]
      exact applyCallFields_snd_of_mem _ _ _ hk
    exact mergeSkipNull_dget_of_none _ _ _ hx2

/-- Witness for the amended C3: the non-schema keyword `foo="bar"` lands
inside the prepared entry's context. -/
theorem claim_C3_witness :
    ∃ ctx, dget (prepare_entry rootLogger "info" "m" [("foo", Value.str "bar")] "t" 1 0).1
        "context" = some (Value.dict ctx) ∧
      dget ctx "foo" = some (Value.str "bar") := by
  obtain ⟨ctx, hctx, h2, h3⟩ :=
    (claim_C3_amended rootLogger "info" "m" [("foo", Value.str "bar")] "t" 1 0).2
  exact ⟨ctx, hctx,
    h2 (by decide) "foo" (Value.str "bar") rfl rfl (by decide) (by decide) (by decide)⟩

/-- Claim C9: the pretty line for a logger bound with
`trace_id="trace-12345678"` and a call with `duration_ms=250` contains
`"[trace-12...]"` and `"(250ms)"`; in general the parts decompose into the
spec's segments, the category segment is omitted for `"app"`, the trace
segment appears exactly for a present (truthy) `trace_id` shown as its first
eight characters plus `"..."`, and the duration segment appears exactly when
`duration_ms` is present. -/
theorem claim_C9 :
    strContains (format_pretty false (prepare_entry
      (rootLogger.bind_trace (some "trace-12345678") none) "info" "Operation with trace"
      [("duration_ms", Value.int 250)] "2024-01-01T12:34:56.000000+00:00"
      1700000000000 0).1) "[trace-12...]" = true ∧
    strContains (format_pretty false (prepare_entry
      (rootLogger.bind_trace (some "trace-12345678") none) "info" "Operation with trace"
      [("duration_ms", Value.int 250)] "2024-01-01T12:34:56.000000+00:00"
      1700000000000 0).1) "(250ms)" = true ∧
    (∀ cz e, pretty_parts cz e =
      headSegments cz e ++ categorySegment e ++ traceSegment e ++ durationSegment e ++
        ["-", getEntryStr e "message"]) ∧
    (∀ e, getEntryStr e "category" = "app" → categorySegment e = []) ∧
    (∀ e, dget e "trace_id" = none → traceSegment e = []) ∧
    (∀ e t, dget e "trace_id" = some (Value.str t) → t ≠ "" →
      traceSegment e = ["[" ++ pyTake t 8 ++ "...]"]) ∧
    (∀ e, dget e "duration_ms" = none → durationSegment e = []) ∧
    (∀ e v, dget e "duration_ms" = some v →
      durationSegment e = ["(" ++ pyStr v ++ "ms)"]) := by
  refine ⟨by decide, by decide, ?_, ?_, ?_, ?_, ?_, ?_⟩
  · intro cz e
    simp [pretty_parts, headSegments, categorySegment, traceSegment, durationSegment,
      List.append_assoc]
  · intro e h
    simp [categorySegment, h]
  · intro e h
    simp [traceSegment, h]
  · intro e t h ht
    simp [traceSegment, h, truthy, ht, pyStr, pyTake]
  · intro e h
    simp [durationSegment, h]
  · intro e v h
    simp [durationSegment, h]

/-- Witness for C9: the prepared entry of the trace scenario carries a bound
`trace_id`, so its trace segment is exactly the 8-character bracket form. -/
theorem claim_C9_witness :
    traceSegment (prepare_entry
      (rootLogger.bind_trace (some "trace-12345678") none) "info" "Operation with trace"
      [("duration_ms", Value.int 250)] "2024-01-01T12:34:56.000000+00:00"
      1700000000000 0).1 = ["[" ++ pyTake "trace-12345678" 8 ++ "...]"] :=
  claim_C9.2.2.2.2.2.1 _ "trace-12345678" rfl (by decide)

/-- Claim C10 counterexample: the `event_id` keyword does take the root slot,
but a key named `event_id` inside an explicitly passed `context` object stays
in the context, so `event_id` can appear inside `context`. -/
theorem claim_C10_counterexample :
    dget (prepare_entry rootLogger "info" "m"
      [("event_id", Value.str "e1"), ("context", Value.dict [("event_id", Value.str "e2")])]
      "t" 1 7).1 "event_id" = some (Value.str "e1") ∧
    dget (prepare_entry rootLogger "info" "m"
      [("event_id", Value.str "e1"), ("context", Value.dict [("event_id", Value.str "e2")])]
      "t" 1 7).1 "context" = some (Value.dict [("event_id", Value.str "e2")]) :=
  ⟨rfl, rfl⟩

/-- Claim C10 (amended): a log call at or above the threshold that supplies a
non-null `event_id` keyword emits an entry whose `event_id` is the supplied
value, the keyword itself is not routed into `context` (when the explicit
`context` object, if any, does not itself carry `event_id`), and the
generator's counter is still incremented — the Python default argument
`generate_event_id()` is evaluated before the pop. -/
theorem claim_C10_amended (lg : StructuredLogger) (level message : String) (extra : Dict)
    (nowIso : String) (nowMs counter : Nat) (v : Value)
    (hget : dget extra "event_id" = some v) (hnn : v.isNull = false)
    (hctx : dget (context_arg_of extra) "event_id" = none)
    (hlevel : ¬ LEVEL_WEIGHTS_get (pyLower level) 0 < level_threshold lg.config) :
    ∃ e ctx, lg.log level message extra nowIso nowMs counter = (some e, counter + 1) ∧
      dget e "event_id" = some v ∧
      dget e "context" = some (Value.dict ctx) ∧
      dget ctx "event_id" = none := by
  have heid : event_id_value extra (generate_event_id nowMs counter).1 = v := by
    rw [event_id_value, dget_dpop_ne _ _ _ (by decide), hget]
    rfl
  refine ⟨(prepare_entry lg (pyLower level) message extra nowIso nowMs counter).1,
    mergeSkipNull (context_arg_of extra)
      (assembled_state lg (pyLower level) message extra nowIso nowMs counter).2,
    ?_, ?_, ?_, ?_⟩
  · simp [StructuredLogger.log, hlevel, prepare_entry, generate_event_id]
  · have h := prepare_entry_event_id lg (pyLower level) message extra nowIso nowMs counter
      (by rw [heid]; exact hnn)
    rw [heid] at h
    exact h
  · exact prepare_entry_context lg (pyLower level) message extra nowIso nowMs counter
  · rw [mergeSkipNull_dget_of_none _ _ _
      (assembled_state_snd_event_id lg (pyLower level) message extra nowIso nowMs counter)]
    exact hctx

/-- Witness for the amended C10: an `info` call supplying `event_id="custom"`
emits that id, keeps it out of the context, and advances the counter. -/
theorem claim_C10_witness :
    ∃ e ctx, rootLogger.log "info" "m" [("event_id", Value.str "custom")] "t" 1 3 =
        (some e, 3 + 1) ∧
      dget e "event_id" = some (Value.str "custom") ∧
      dget e "context" = some (Value.dict ctx) ∧
      dget ctx "event_id" = none :=
  claim_C10_amended rootLogger "info" "m" [("event_id", Value.str "custom")] "t" 1 3
    (Value.str "custom") rfl rfl rfl (by decide)

end Homelab
